import Mathlib

/-!
Verification development for the in-memory file-system simulator.

The model below is a shallow embedding of the C++ core (Storage.cpp,
FileSystem.cpp, File.cpp, Folder.cpp, GrepService.cpp).  The C++
std::map containers are modelled as association lists kept in ascending
key order (std::map iterates its entries in key order); std::map
operator[] auto-insertion of default values is modelled explicitly where
the source relies on it.  Null entity pointers are modelled as `none`
values stored in the registries.  Natively recursive walks (removeDFS,
getPath, recursive grep) receive an explicit fuel argument: any fuel
bounding the recursion depth reproduces the C++ behaviour on acyclic
states, and on cyclic states (where the C++ recursion does not
terminate) the model returns a partial result that no theorem relies on.
-/

namespace FSim

/-- Association list with string keys, modelling C++ std::map<string, A>.
Keys are kept in ascending order by the insertion operation, matching
std::map iteration order. -/
abbrev AList (A : Type) := List (String × A)

/-- Lexicographic comparison of character lists by code point; on the
ASCII identifier keys of this program it coincides with the byte-wise
std::string operator<. -/
def strLtCh : List Char → List Char → Bool
  | [], [] => false
  | [], _ :: _ => true
  | _ :: _, [] => false
  | a :: as, b :: bs =>
    if a.toNat < b.toNat then true
    else if b.toNat < a.toNat then false
    else strLtCh as bs

/-- Lexicographic string comparison, the key order of std::map. -/
def strLt (a b : String) : Bool := strLtCh a.data b.data

/-- Lookup of a key, modelling std::map::find / read access. -/
def alook {A : Type} : AList A → String → Option A
  | [], _ => none
  | (k', v) :: t, k => if k' = k then some v else alook t k

/-- Insert-or-assign of a key, modelling std::map operator[] assignment.
The new entry is placed at its ordered position. -/
def aset {A : Type} : AList A → String → A → AList A
  | [], k, v => [(k, v)]
  | (k', v') :: t, k, v =>
    if k = k' then (k, v) :: t
    else if strLt k k' then (k, v) :: (k', v') :: t
    else (k', v') :: aset t k v

/-- Erase of a key, modelling std::map::erase(key).  In a map every key
occurs at most once, so removing every occurrence agrees with the C++
semantics on map-representable lists. -/
def aerase {A : Type} (m : AList A) (k : String) : AList A :=
  m.filter (fun p => p.1 ≠ k)

/-- Folder record (Folder.cpp): id, name and parent folder id. -/
structure Folder where
  id : String
  name : String
  folderId : String
deriving DecidableEq

/-- Gets the parent folder id (Folder::getParentId). -/
def Folder.getParentId (f : Folder) : String := f.folderId

/-- Gets the folder name (Folder::getName). -/
def Folder.getName (f : Folder) : String := f.name

/-- File record (File.cpp): id, name/extension split, owning folder id
and mutable content (default empty). -/
structure File where
  id : String
  name : String
  extension : String
  folderId : String
  content : String
deriving DecidableEq

/-- Splits a character list at the first dot: returns the part before
and the part after the first '.', or none when no dot occurs. -/
def splitDot : List Char → Option (List Char × List Char)
  | [] => none
  | c :: t =>
    if c = '.' then some ([], t)
    else match splitDot t with
      | some (a, b) => some (c :: a, b)
      | none => none

/-- File constructor (File::File): the creation string is split at the
first '.' into name and extension.  When the string holds no dot the C++
constructor reads an uninitialized index (undefined behaviour); the
model keeps the whole string as the name then.  No verified scenario
creates a dot-free file name. -/
def mkFile (id fileName folderId : String) : File :=
  match splitDot fileName.data with
  | some (n, e) => ⟨id, String.mk n, String.mk e, folderId, ""⟩
  | none => ⟨id, fileName, "", folderId, ""⟩

/-- Rebuilds the display name (File::getFileName): name + "." + extension. -/
def File.getFileName (f : File) : String := f.name ++ "." ++ f.extension

/-- Gets the owning folder id (File::getFolderId). -/
def File.getFolderId (f : File) : String := f.folderId

/-- Cursor operation (FileSystem::addFolderId): pushes a folder id on the
path stack.  The stack is modelled head-first (head = top). -/
def addFolderId (p : List String) (id : String) : List String := id :: p

/-- Cursor operation (FileSystem::checkEmpty): true when the path stack
holds no element at all. -/
def checkEmpty (p : List String) : Bool := p.isEmpty

/-- Cursor operation (FileSystem::removeCurrentFolder): pops the top of
the path stack when it is non-empty. -/
def removeCurrentFolder (p : List String) : List String :=
  if p.isEmpty then p else p.tail

/-- Cursor operation (FileSystem::getCurrentFolder): top of the path
stack, or the empty string when the stack is empty. -/
def getCurrentFolder (p : List String) : String := p.headD ""

/-- Key classification used by the C++ dispatch on the first character:
folder keys start with 'F'. -/
def isFolderKey (k : String) : Bool := k.data.head? = some 'F'

/-- Key classification: file keys start with 'f'. -/
def isFileKey (k : String) : Bool := k.data.head? = some 'f'

/-- The whole Storage state (Storage.h): the tree index mapping a folder
id to its child-id set, the folder registry, the file registry (both
holding possibly-null records) and the cursor stack. -/
structure Storage where
  tree : AList (AList Nat)
  folders : AList (Option Folder)
  files : AList (Option File)
  path : List String
deriving DecidableEq

/-- Initial state (Storage::Storage): pushes "F0" on the cursor, registers
a null record for "F0" with an empty tree entry, creates BaseFolder "F1"
with parent sentinel "FX", then pushes "F0" again and "F1".  Note the C++
constructor neither links "F1" into the tree entry of "F0" nor creates a
tree entry for "F1". -/
def initStorage : Storage :=
  { tree := [("F0", [])],
    folders := [("F0", none), ("F1", some ⟨"F1", "BaseFolder", "FX"⟩)],
    files := [],
    path := ["F1", "F0", "F0"] }

/-- Registry lookup (Storage::getFolder): returns folders[id].  A null
record or an absent key both yield a null pointer in C++, modelled as
`none` (the C++ operator[] also default-inserts a null entry for an
absent key; that registry side effect is not observed by any claim). -/
def Storage.getFolder (st : Storage) (id : String) : Option Folder :=
  (alook st.folders id).join

/-- Registry lookup (Storage::getFile): returns files[id], null modelled
as `none` exactly as in `Storage.getFolder`. -/
def Storage.getFile (st : Storage) (id : String) : Option File :=
  (alook st.files id).join

/-- Current folder id (Storage::getCurrentFolderId). -/
def Storage.getCurrentFolderId (st : Storage) : String :=
  getCurrentFolder st.path

/-- Models the std::map operator[] default-insertion performed by every
C++ read of tree[k]: an absent key receives an empty child map. -/
def Storage.ensureTree (st : Storage) (k : String) : Storage :=
  match alook st.tree k with
  | some _ => st
  | none => { st with tree := aset st.tree k [] }

/-- The child map of a folder id after operator[] access. -/
def Storage.treeEntry (st : Storage) (k : String) : AList Nat :=
  (alook st.tree k).getD []

/-- New file id minting (Storage::getNewFileId): "f" + files.size(). -/
def Storage.getNewFileId (st : Storage) : String :=
  "f" ++ toString st.files.length

/-- New folder id minting (Storage::getNewFolderId): "F" + folders.size(). -/
def Storage.getNewFolderId (st : Storage) : String :=
  "F" ++ toString st.folders.length

/-- The collision scan predicate of Storage::addFile and
Storage::validateFile: a child key is a hit when it starts with 'f' and
its (live) record's display name equals the searched name.  The C++ code
dereferences files[key] without a null check; in the states the theorems
visit every scanned file key is live, and the model maps a dead record
to a miss. -/
def fileNamePred (st : Storage) (name : String) (p : String × Nat) : Bool :=
  isFileKey p.1 &&
    (match st.getFile p.1 with
     | some f => f.getFileName == name
     | none => false)

/-- The collision scan predicate of Storage::addFolder and
Storage::validateFolder: a child key starting with 'F' whose live record
carries the searched folder name. -/
def folderNamePred (st : Storage) (name : String) (p : String × Nat) : Bool :=
  isFolderKey p.1 &&
    (match st.getFolder p.1 with
     | some fo => fo.name == name
     | none => false)

/-- File creation (Storage::addFile): reads tree[folderId] (operator[]
inserts an empty entry when absent), scans it for a file with the same
display name, and on a miss mints "f"+files.size(), stores the record
and links it under folderId.  Returns the state and whether a file was
created; on a collision the state is returned with no further change. -/
def Storage.addFile (st : Storage) (name folderId : String) : Storage × Bool :=
  let st1 := st.ensureTree folderId
  let entry := st1.treeEntry folderId
  if entry.any (fileNamePred st1 name) then (st1, false)
  else
    let newFileId := st1.getNewFileId
    let f := mkFile newFileId name folderId
    ({ st1 with
        files := aset st1.files newFileId (some f),
        tree := aset st1.tree folderId (aset entry newFileId 1) }, true)

/-- Folder creation (Storage::addFolder): reads tree[parentFolderId]
(operator[] inserts an empty entry when absent), scans it for a folder
with the same name, and on a miss mints "F"+folders.size(), stores the
record and links it under parentFolderId.  The C++ code creates no tree
entry for the new folder itself. -/
def Storage.addFolder (st : Storage) (name parentFolderId : String) : Storage × Bool :=
  let st1 := st.ensureTree parentFolderId
  let entry := st1.treeEntry parentFolderId
  if entry.any (folderNamePred st1 name) then (st1, false)
  else
    let newFolderId := st1.getNewFolderId
    let fo : Folder := ⟨newFolderId, name, parentFolderId⟩
    ({ st1 with
        folders := aset st1.folders newFolderId (some fo),
        tree := aset st1.tree parentFolderId (aset entry newFolderId 1) }, true)

/-- Path resolution walk (Storage::getPath): while the current folder
record is live and its parent id is not "F0", prepend name + "/" and
move to the parent record.  The fuel bounds the walk; folders.size()+1
steps suffice on every acyclic parent chain (on a cyclic chain the C++
loop does not terminate). -/
def Storage.getPathAux (st : Storage) : Nat → Option Folder → String → String
  | 0, _, acc => acc
  | Nat.succ fuel, f?, acc =>
    match f? with
    | none => acc
    | some f =>
      if f.folderId = "F0" then acc
      else st.getPathAux fuel (st.getFolder f.folderId) (f.name ++ "/" ++ acc)

/-- Path resolution (Storage::getPath): starts at folders[id] with an
empty accumulator. -/
def Storage.getPath (st : Storage) (id : String) : String :=
  st.getPathAux (st.folders.length + 1) (st.getFolder id) ""

/-- Navigation (Storage::getIntoFolder): for a name other than "..",
scans the current folder's children for a folder with that name and
pushes the first hit; for "..", pops the cursor whenever the stack is
non-empty.  The returned flag is false exactly on the paths where the
C++ code prints the wrong-name error. -/
def Storage.getIntoFolder (st : Storage) (name : String) : Storage × Bool :=
  let cur := st.getCurrentFolderId
  if name ≠ ".." then
    let st1 := st.ensureTree cur
    match (st1.treeEntry cur).find? (folderNamePred st1 name) with
    | some p => ({ st1 with path := addFolderId st1.path p.1 }, true)
    | none => (st1, false)
  else if checkEmpty st.path = false then
    ({ st with path := removeCurrentFolder st.path }, true)
  else (st, false)

/-- Content update (Storage::addContent): when a file with the display
name exists in the current folder, every matching child has its record's
content replaced. -/
def Storage.addContent (st : Storage) (fileName contentArg : String) : Storage :=
  let cur := st.getCurrentFolderId
  let st1 := st.ensureTree cur
  let entry := st1.treeEntry cur
  if entry.any (fileNamePred st1 fileName) then
    { st1 with
        files := entry.foldl (fun fs p =>
          if isFileKey p.1 then
            match (alook fs p.1).join with
            | some f =>
              if f.getFileName == fileName then
                aset fs p.1 (some { f with content := contentArg })
              else fs
            | none => fs
          else fs) st1.files }
  else st1

/-- File removal (Storage::removeFile): validateFile and the removal loop
scan the same current-folder entry with the same predicate, so they are
fused into one find.  The first matching child's record id is erased
from the file registry and from the current tree entry; an emptied tree
entry is pruned. -/
def Storage.removeFile (st : Storage) (fileName : String) : Storage × Bool :=
  let cur := st.getCurrentFolderId
  let st1 := st.ensureTree cur
  let entry := st1.treeEntry cur
  match entry.find? (fileNamePred st1 fileName) with
  | none => (st1, false)
  | some p =>
    match st1.getFile p.1 with
    | none => (st1, false)
    | some f =>
      let fileId := f.id
      let entry' := aerase entry fileId
      let tree' :=
        if entry'.length = 0 then aerase st1.tree cur
        else aset st1.tree cur entry'
      ({ st1 with files := aerase st1.files fileId, tree := tree' }, true)

/-- Cascading deletion walk (Storage::removeDFS): iterates the child map
of the node; child keys starting with 'F' are removed recursively, any
other child key has its file record set to null (the C++ code assigns
nullptr, it does not erase the key).  Afterwards the node's own folder
record is set to null and its tree entry is erased.  Fuel bounds the
recursion depth as explained in the file header. -/
def Storage.removeDFS : Nat → String → Storage → Storage
  | 0, _, st => st
  | Nat.succ fuel, node, st =>
    let st1 := st.ensureTree node
    let keys := (st1.treeEntry node).map Prod.fst
    let st2 := keys.foldl (fun s k =>
      if isFolderKey k then Storage.removeDFS fuel k s
      else { s with files := aset s.files k none }) st1
    { st2 with folders := aset st2.folders node none, tree := aerase st2.tree node }

/-- Folder removal (Storage::removeFolder): validateFolder and the
removal loop scan the same current-folder entry with the same predicate,
fused into one find.  The hit's record supplies the folder id and the
parent id; the folder id is erased from tree[parent] and the subtree is
destroyed by removeDFS. -/
def Storage.removeFolder (st : Storage) (folderName : String) : Storage × Bool :=
  let cur := st.getCurrentFolderId
  let st1 := st.ensureTree cur
  let entry := st1.treeEntry cur
  match entry.find? (folderNamePred st1 folderName) with
  | none => (st1, false)
  | some p =>
    match st1.getFolder p.1 with
    | none => (st1, false)
    | some fo =>
      let folderId := fo.id
      let parId := fo.folderId
      let st2 := st1.ensureTree parId
      let entryP := st2.treeEntry parId
      let st3 := { st2 with tree := aset st2.tree parId (aerase entryP folderId) }
      (Storage.removeDFS (st3.tree.length + 1) folderId st3, true)

/-- ASCII lowercase fold applied character-wise, modelling the
std::transform(..., ::tolower) calls of GrepService::matchesPattern
(C locale: only 'A'..'Z' are mapped). -/
def lowerStr (s : String) : String := String.mk (s.data.map Char.toLower)

/-- Prefix test on character lists. -/
def isPrefixCh : List Char → List Char → Bool
  | [], _ => true
  | _ :: _, [] => false
  | a :: as, b :: bs => a = b && isPrefixCh as bs

/-- Substring containment on character lists: the pattern occurs as a
contiguous run of the haystack. -/
def containsCh : List Char → List Char → Bool
  | hay, pat =>
    isPrefixCh pat hay ||
      (match hay with
       | [] => false
       | _ :: t => containsCh t pat)

/-- Substring containment on strings, modelling
searchLine.find(searchPattern) != string::npos (an empty pattern is
found at position 0). -/
def strContainsSub (hay pat : String) : Bool := containsCh hay.data pat.data

/-- Accumulating line splitter mirroring the getline loop of
GrepService::splitLines: a '\n' terminates the current line (possibly
empty); a final line without terminator is still emitted when non-empty
current input remains at end of stream. -/
def splitLinesAux : List Char → List Char → List String
  | [], acc => if acc.isEmpty then [] else [String.mk acc]
  | c :: rest, acc =>
    if c = '\n' then String.mk acc :: splitLinesAux rest []
    else splitLinesAux rest (acc ++ [c])

/-- Line splitting (GrepService::splitLines), including the source's
guard that re-adds the whole content as a single line when the content
is non-empty, lacks a final newline and the getline loop produced
nothing (the guard is unreachable, but modelled faithfully). -/
def splitLines (content : String) : List String :=
  let lines := splitLinesAux content.data []
  if content.data ≠ [] ∧ content.data.getLast? ≠ some '\n' ∧ lines = [] then
    [content]
  else lines

/-- Abstraction of std::regex: given the (possibly case-folded) pattern
string and the icase flag, regex construction either throws
(regex_error, modelled as `none`) or yields a matcher applied to a line
by regex_search (`some f`).  The theorems quantify over the engine, so
they hold for the actual ECMAScript semantics in particular. -/
abbrev RegexEngine := String → Bool → Option (String → Bool)

/-- Search options (GrepService.h struct GrepOptions). -/
structure GrepOptions where
  caseInsensitive : Bool
  recursive : Bool
  showLineNumbers : Bool
  showFilePath : Bool
  countOnly : Bool
  invertMatch : Bool
  targetFile : String
  targetFolder : String
deriving DecidableEq

/-- The default option values from the in-class initializers of
GrepOptions. -/
def defaultGrepOptions : GrepOptions :=
  ⟨false, false, true, true, false, false, "", ""⟩

/-- One search hit (GrepService.h struct GrepResult). -/
structure GrepResult where
  fileName : String
  filePath : String
  lineNumber : Nat
  matchedLine : String
  fileId : String
deriving DecidableEq

/-- Line matching (GrepService::matchesPattern): both line and pattern
are case-folded when caseInsensitive is set; regex construction is then
attempted on the (folded) pattern with the icase flag, and on success
regex_search runs on the original line; a regex_error falls back to
substring containment of the folded pattern in the folded line; the
result is negated when invertMatch is set. -/
def matchesPattern (eng : RegexEngine) (line pattern : String)
    (caseInsensitive invertMatch : Bool) : Bool :=
  let searchLine := if caseInsensitive then lowerStr line else line
  let searchPattern := if caseInsensitive then lowerStr pattern else pattern
  let found :=
    match eng searchPattern caseInsensitive with
    | some f => f line
    | none => strContainsSub searchLine searchPattern
  if invertMatch then !found else found

/-- The match-collection loop of GrepService::searchInFile: lines are
visited in document order, the running index i yields the 1-based line
number i+1, and each hit is rendered through mk. -/
def collectMatches (eng : RegexEngine) (pattern : String)
    (caseInsensitive invertMatch : Bool) (mk : Nat → String → GrepResult) :
    Nat → List String → List GrepResult
  | _, [] => []
  | i, l :: rest =>
    (if matchesPattern eng l pattern caseInsensitive invertMatch
     then [mk (i + 1) l] else []) ++
      collectMatches eng pattern caseInsensitive invertMatch mk (i + 1) rest

/-- Single-file search (GrepService::searchInFile): a dead or absent file
id and an empty content both produce no records; otherwise each matching
line becomes a record carrying the file name, the rendered path, the
1-based line number, the line and the file id. -/
def searchInFile (eng : RegexEngine) (st : Storage)
    (fileId pattern : String) (opts : GrepOptions) : List GrepResult :=
  match st.getFile fileId with
  | none => []
  | some file =>
    if file.content = "" then []
    else
      collectMatches eng pattern opts.caseInsensitive opts.invertMatch
        (fun n l =>
          ⟨file.getFileName,
           st.getPath file.getFolderId ++ "/" ++ file.getFileName,
           n, l, fileId⟩)
        0 (splitLines file.content)

/-- Child file ids of a folder (Storage::getFileIdsInFolder): keys of the
tree entry starting with 'f', in map order; an absent entry yields
nothing (this accessor uses find, not operator[]). -/
def Storage.getFileIdsInFolder (st : Storage) (folderId : String) : List String :=
  match alook st.tree folderId with
  | none => []
  | some entry => (entry.map Prod.fst).filter (fun k => k.data.head? = some 'f')

/-- Child folder ids of a folder (Storage::getFolderIdsInFolder). -/
def Storage.getFolderIdsInFolder (st : Storage) (folderId : String) : List String :=
  match alook st.tree folderId with
  | none => []
  | some entry => (entry.map Prod.fst).filter (fun k => k.data.head? = some 'F')

/-- Folder search (GrepService::searchInFolder): searches every file
directly in the folder, then, when the recursive option is set, every
child folder.  Fuel bounds the recursion depth as explained in the file
header. -/
def searchInFolder (eng : RegexEngine) : Nat → Storage → String → String →
    GrepOptions → List GrepResult
  | 0, _, _, _, _ => []
  | Nat.succ fuel, st, folderId, pattern, opts =>
    let rs := (st.getFileIdsInFolder folderId).foldl
      (fun acc fid => acc ++ searchInFile eng st fid pattern opts) []
    if opts.recursive then
      (st.getFolderIdsInFolder folderId).foldl
        (fun acc sub => acc ++ searchInFolder eng fuel st sub pattern opts) rs
    else rs

/-- File id lookup by display name in a folder
(Storage::getFileIdByName): first live 'f'-child carrying the name, or
the empty string. -/
def Storage.getFileIdByName (st : Storage) (fileName folderId : String) : String :=
  match alook st.tree folderId with
  | none => ""
  | some entry =>
    match entry.find? (fun p =>
      p.1.data.head? = some 'f' &&
        (match st.getFile p.1 with
         | some f => f.getFileName == fileName
         | none => false)) with
    | some p => p.1
    | none => ""

/-- The engine-level outcome of a grep call: the ordered match records,
their count when countOnly is set, or the not-found report for a missing
target file.  Console rendering beyond this outcome is presentation. -/
inductive GrepOutcome where
  | results (rs : List GrepResult)
  | count (n : Nat)
  | notFound
deriving DecidableEq

/-- Packs a record list into the displayed outcome
(GrepService::displayResults): the scalar count when countOnly is set,
the records otherwise. -/
def displayOutcome (rs : List GrepResult) (opts : GrepOptions) : GrepOutcome :=
  if opts.countOnly then GrepOutcome.count rs.length else GrepOutcome.results rs

/-- Target-file search (GrepService::grepInFile): resolves the name in
the current folder; a missing file reports not-found, otherwise the file
is searched and the outcome displayed. -/
def grepInFile (eng : RegexEngine) (st : Storage)
    (pattern fileName : String) (opts : GrepOptions) : GrepOutcome :=
  let fileId := st.getFileIdByName fileName st.getCurrentFolderId
  if fileId ≠ "" then
    displayOutcome (searchInFile eng st fileId pattern opts) opts
  else GrepOutcome.notFound

/-- Top-level search (GrepService::grep): with a target file set, only
that file is searched; otherwise the current folder is searched,
recursively when requested. -/
def grep (eng : RegexEngine) (st : Storage)
    (pattern : String) (opts : GrepOptions) : GrepOutcome :=
  if opts.targetFile ≠ "" then grepInFile eng st pattern opts.targetFile opts
  else
    displayOutcome
      (searchInFolder eng (st.tree.length + 1) st st.getCurrentFolderId pattern opts)
      opts

/-- Ids of the live (non-null) folder records of the Entity Registry. -/
def liveFolderIds (st : Storage) : List String :=
  st.folders.filterMap (fun p => match p.2 with | some _ => some p.1 | none => none)

/-- Ids of the live (non-null) file records of the Entity Registry. -/
def liveFileIds (st : Storage) : List String :=
  st.files.filterMap (fun p => match p.2 with | some _ => some p.1 | none => none)

/-- Worklist traversal of the tree index collecting every id reachable
from the seeds through child links.  The fuel bounds the number of
worklist pops; on a genuine tree it is never exhausted with the budget
used by `reachableIds`. -/
def reachAux (st : Storage) : Nat → List String → List String
  | 0, _ => []
  | Nat.succ _, [] => []
  | Nat.succ fuel, node :: stack =>
    let childs := ((alook st.tree node).getD []).map Prod.fst
    node :: reachAux st fuel (childs ++ stack)

/-- Total number of child links in the tree index. -/
def treeEdgeCount (st : Storage) : Nat :=
  st.tree.foldl (fun a p => a + p.2.length) 0

/-- Every id reachable from the root "F0" through tree-index child
links.  On a tree every node is popped at most once, so the fuel budget
(1 seed + one pop per link, plus slack) is sufficient. -/
def reachableIds (st : Storage) : List String :=
  reachAux st (treeEdgeCount st + st.tree.length + 2) ["F0"]

/-- First half of the spec's tree-consistency invariant: every id listed
as a child in some tree entry has that entry's key as its record's
parentId (vacuous for ids without a live record). -/
def edgeConsistentB (st : Storage) : Bool :=
  st.tree.all (fun pe => pe.2.all (fun ch =>
    match st.getFolder ch.1 with
    | some fo => fo.folderId == pe.1
    | none =>
      match st.getFile ch.1 with
      | some f => f.folderId == pe.1
      | none => true))

/-- Second half of the spec's tree-consistency invariant: every live id
of the Entity Registry other than the root's sentinel ancestors "F0" and
"FX" is reachable from the root. -/
def noOrphansB (st : Storage) : Bool :=
  (liveFolderIds st ++ liveFileIds st).all (fun k =>
    k == "F0" || k == "FX" || (reachableIds st).contains k)

/-- The tree-consistency invariant of the spec (existence part: the
uniqueness of the parent chain is not needed to settle the claims, and
it holds trivially in every state the theorems instantiate). -/
def treeConsistentB (st : Storage) : Bool :=
  edgeConsistentB st && noOrphansB st

/-- A regex engine that rejects every pattern; instantiating a theorem
with it exercises the substring fallback. -/
def engReject : RegexEngine := fun _ _ => none

/-- A regex engine that treats every pattern as a literal and searches it
as a substring; on patterns free of regex metacharacters this is exactly
the ECMAScript regex_search behaviour. -/
def engLiteral : RegexEngine := fun pat _ => some (fun line => strContainsSub line pat)

/-- State with a folder named "a.txt" created in the base folder. -/
def C1state : Storage := (initStorage.addFolder "a.txt" "F1").1

/-- State with folder A (id "F2") in the base folder, file b.txt (id
"f0") and folder C (id "F3") inside A, and file d.txt (id "f1") inside
C — the cascading-delete scenario of the spec. -/
def stC2 : Storage :=
  ((((initStorage.addFolder "A" "F1").1.addFile "b.txt" "F2").1.addFolder
      "C" "F2").1.addFile "d.txt" "F3").1

/-- State with folder docs (id "F2") created under the root "F0" and
folder reports (id "F3") created under docs. -/
def C3stateRoot : Storage :=
  ((initStorage.addFolder "docs" "F0").1.addFolder "reports" "F2").1

/-- State with folder docs (id "F2") created under the base folder "F1"
and folder reports (id "F3") created under docs. -/
def C3stateBase : Storage :=
  ((initStorage.addFolder "docs" "F1").1.addFolder "reports" "F2").1

/-- Cursor states after one, two and three ascend calls from the initial
state. -/
def C4state1 : Storage × Bool := initStorage.getIntoFolder ".."

/-- Second ascend from the initial state. -/
def C4state2 : Storage × Bool := C4state1.1.getIntoFolder ".."

/-- Third ascend from the initial state. -/
def C4state3 : Storage × Bool := C4state2.1.getIntoFolder ".."

/-- Fourth ascend from the initial state. -/
def C4state4 : Storage × Bool := C4state3.1.getIntoFolder ".."

/-- State after creating files a.txt (id "f0") and b.txt (id "f1") in
the base folder and then removing a.txt. -/
def C5state : Storage :=
  (((initStorage.addFile "a.txt" "F1").1.addFile "b.txt" "F1").1.removeFile
      "a.txt").1

/-- A minimal consistent state: only the root "F0" with an empty child
set, an empty file registry and the cursor at the root. -/
def stX : Storage :=
  { tree := [("F0", [])], folders := [("F0", none)], files := [], path := ["F0"] }

/-- State with file notes.txt (id "f0") in the base folder holding the
two-line content of the spec's grep scenario. -/
def notesStore : Storage :=
  ((initStorage.addFile "notes.txt" "F1").1.addContent "notes.txt"
    "Hello World\nSecond line\n")

/-! Association-list lemmas used by the state-transition proofs. -/

theorem alook_aset_self {A : Type} (m : AList A) (k : String) (v : A) :
    alook (aset m k v) k = some v := by
  induction m with
  | nil => simp [aset, alook]
  | cons p t ih =>
    obtain ⟨k', v'⟩ := p
    by_cases h : k = k'
    · simp [aset, h, alook]
    · by_cases h2 : strLt k k' = true
      · simp [aset, h, h2, alook]
      · simp [aset, h, h2, alook, Ne.symm h, ih]

theorem alook_aset_ne {A : Type} (m : AList A) (k k' : String) (v : A)
    (h : k ≠ k') : alook (aset m k v) k' = alook m k' := by
  induction m with
  | nil => simp [aset, alook, h]
  | cons p t ih =>
    obtain ⟨k1, v1⟩ := p
    by_cases h1 : k = k1
    · subst h1
      simp [aset, alook, h]
    · by_cases h2 : strLt k k1 = true
      · simp [aset, h1, h2, alook, h]
      · simp [aset, h1, h2, alook, ih]

theorem alook_aerase_self {A : Type} (m : AList A) (k : String) :
    alook (aerase m k) k = none := by
  induction m with
  | nil => simp [aerase, alook]
  | cons p t ih =>
    obtain ⟨k1, v1⟩ := p
    by_cases h : k1 = k
    · simpa [aerase, h] using ih
    · simpa [aerase, alook, h] using ih

theorem alook_aerase_ne {A : Type} (m : AList A) (k k' : String)
    (h : k' ≠ k) : alook (aerase m k) k' = alook m k' := by
  induction m with
  | nil => simp [aerase, alook]
  | cons p t ih =>
    obtain ⟨k1, v1⟩ := p
    by_cases h1 : k1 = k
    · subst h1
      simpa [aerase, alook, Ne.symm h] using ih
    · by_cases h2 : k1 = k'
      · subst h2
        simp [aerase, alook, h]
      · simpa [aerase, alook, h1, h2] using ih

theorem mem_keys_aset_self {A : Type} (m : AList A) (k : String) (v : A) :
    k ∈ (aset m k v).map Prod.fst := by
  induction m with
  | nil => simp [aset]
  | cons p t ih =>
    obtain ⟨k1, v1⟩ := p
    by_cases h : k = k1
    · simp [aset, h]
    · by_cases h2 : strLt k k1 = true
      · simp [aset, h, h2]
      · simp only [aset, if_neg h, if_neg h2, List.map_cons, List.mem_cons]
        exact Or.inr ih

theorem alook_ne_nil {A : Type} (m : AList A) (k : String) (v : A)
    (h : alook m k = some v) : m ≠ [] := by
  intro he
  subst he
  simp [alook] at h

/-! Small lemmas about the model's state transitions. -/

theorem ensureTree_of_some (st : Storage) (k : String) (e : AList Nat)
    (h : alook st.tree k = some e) : st.ensureTree k = st := by
  simp [Storage.ensureTree, h]

theorem treeEntry_of_some (st : Storage) (k : String) (e : AList Nat)
    (h : alook st.tree k = some e) : st.treeEntry k = e := by
  unfold Storage.treeEntry
  rw [h]
  rfl

theorem ensureTree_files (st : Storage) (k : String) :
    (st.ensureTree k).files = st.files := by
  unfold Storage.ensureTree
  cases alook st.tree k <;> rfl

theorem ensureTree_folders (st : Storage) (k : String) :
    (st.ensureTree k).folders = st.folders := by
  unfold Storage.ensureTree
  cases alook st.tree k <;> rfl

theorem ensureTree_path (st : Storage) (k : String) :
    (st.ensureTree k).path = st.path := by
  unfold Storage.ensureTree
  cases alook st.tree k <;> rfl

theorem splitDot_append (l : List Char) : ∀ a b, splitDot l = some (a, b) →
    a ++ '.' :: b = l := by
  induction l with
  | nil => intro a b h; simp [splitDot] at h
  | cons c t ih =>
    intro a b h
    by_cases hc : c = '.'
    · subst hc
      simp [splitDot] at h
      obtain ⟨rfl, rfl⟩ := h
      rfl
    · simp only [splitDot, if_neg hc] at h
      cases hs : splitDot t with
      | none => rw [hs] at h; exact absurd h (by simp)
      | some p =>
        obtain ⟨a', b'⟩ := p
        rw [hs] at h
        simp only [Option.some.injEq, Prod.mk.injEq] at h
        obtain ⟨rfl, rfl⟩ := h
        rw [List.cons_append, ih a' b' hs]

theorem splitDot_isSome (l : List Char) (h : '.' ∈ l) :
    (splitDot l).isSome = true := by
  induction l with
  | nil => simp at h
  | cons c t ih =>
    by_cases hc : c = '.'
    · simp [splitDot, hc]
    · have ht : '.' ∈ t := by
        rcases List.mem_cons.mp h with h1 | h1
        · exact absurd h1.symm hc
        · exact h1
      simp only [splitDot, if_neg hc]
      cases hs : splitDot t with
      | none => rw [hs] at ih; simp [ih ht] at *
      | some p => obtain ⟨a, b⟩ := p; simp

theorem mkFile_getFileName (id name folderId : String)
    (h : '.' ∈ name.data) : (mkFile id name folderId).getFileName = name := by
  have hsome := splitDot_isSome name.data h
  unfold mkFile
  cases hs : splitDot name.data with
  | none => rw [hs] at hsome; simp at hsome
  | some p =>
    obtain ⟨a, b⟩ := p
    have hl := splitDot_append name.data a b hs
    simp only [File.getFileName]
    show String.mk a ++ "." ++ String.mk b = name
    apply String.ext
    simp only [String.data_append]
    rw [← hl]
    simp

theorem mkFile_folderId (id name folderId : String) :
    (mkFile id name folderId).folderId = folderId := by
  unfold mkFile
  cases hs : splitDot name.data with
  | none => rfl
  | some p => obtain ⟨a, b⟩ := p; rfl

theorem isFileKey_append (s : String) : isFileKey ("f" ++ s) = true := by
  simp [isFileKey, String.data_append]

theorem isFolderKey_append (s : String) : isFolderKey ("F" ++ s) = true := by
  simp [isFolderKey, String.data_append]

theorem removeDFS_succ (fuel : Nat) (node : String) (st : Storage) :
    Storage.removeDFS (fuel + 1) node st =
      (let st1 := st.ensureTree node
       let keys := (st1.treeEntry node).map Prod.fst
       let st2 := keys.foldl (fun s k =>
         if isFolderKey k then Storage.removeDFS fuel k s
         else { s with files := aset s.files k none }) st1
       { st2 with folders := aset st2.folders node none,
                  tree := aerase st2.tree node }) := rfl

/-! Claim theorems. -/

/-- C1 (counterexample): the collision check does not reject a new file
whose name equals an existing sibling folder's name.  After a folder
named "a.txt" is created in the base folder, creating a file "a.txt" in
the same folder succeeds, and afterwards both the folder "F2" and the
file "f0" named "a.txt" are live — refuting the cross-kind half of the
claim. -/
theorem C1_cross_kind_create_succeeds :
    (initStorage.addFolder "a.txt" "F1").2 = true ∧
    (C1state.addFile "a.txt" "F1").2 = true ∧
    (C1state.addFile "a.txt" "F1").1.getFile "f0" =
      some (mkFile "f0" "a.txt" "F1") ∧
    (C1state.addFile "a.txt" "F1").1.getFolder "F2" =
      some ⟨"F2", "a.txt", "F1"⟩ := by
  decide

/-- C3 (counterexample): with folder docs created under the root "F0"
and folder reports created under docs, getPath on reports yields
"reports/", not the claimed "/docs/reports", and the root itself
resolves to the empty string, not "/". -/
theorem C3_path_counterexample :
    C3stateRoot.getFolder "F3" = some ⟨"F3", "reports", "F2"⟩ ∧
    C3stateRoot.getPath "F3" ≠ "/docs/reports" ∧
    C3stateRoot.getPath "F0" ≠ "/" := by
  decide

/-- C3 (amended): getPath renders, bottom-up, the names of exactly those
chain members whose parentId is not "F0", each followed by "/": reports
under docs under the root resolves to "reports/" (the name of docs, a
direct child of "F0", is never rendered, there is no leading slash and a
trailing slash remains); docs itself and the root resolve to the empty
string; with docs under the base folder instead, the walk also renders
"BaseFolder", giving "BaseFolder/docs/reports/". -/
theorem C3_path_amended :
    C3stateRoot.getPath "F3" = "reports/" ∧
    C3stateRoot.getPath "F2" = "" ∧
    C3stateRoot.getPath "F0" = "" ∧
    C3stateBase.getPath "F3" = "BaseFolder/docs/reports/" := by
  decide

/-- C4 (counterexample): starting from the initial cursor (three
elements: F0, F0, F1), three successive ascend calls all succeed and
leave the cursor completely empty — zero elements, fewer than one — and
only the fourth call fails; this refutes both the one-element floor and
the claim that ascend at the root already fails. -/
theorem C4_cursor_underflow :
    C4state1.2 = true ∧ C4state2.2 = true ∧ C4state3.2 = true ∧
    C4state3.1.path = [] ∧ C4state4 = (C4state3.1, false) := by
  decide

/-- C5 (code bug evidence): after creating files a.txt (id f0) and b.txt
(id f1) in the base folder and removing a.txt, the file registry holds
one entry again, so the next minted file id is "f1" — the id of the
still-live file b.txt; creating c.txt then succeeds and overwrites the
live record of b.txt with the new file. -/
theorem C5_file_id_reuse :
    C5state.getNewFileId = "f1" ∧
    C5state.getFile "f1" = some (mkFile "f1" "b.txt" "F1") ∧
    (C5state.addFile "c.txt" "F1").2 = true ∧
    (C5state.addFile "c.txt" "F1").1.getFile "f1" =
      some (mkFile "f1" "c.txt" "F1") := by
  decide

/-- C6 (counterexample): from a state satisfying the tree-consistency
invariant (root only, empty tree entry), createFile invoked with the
unregistered parent id "BOGUS" succeeds — operator[] silently creates a
tree entry keyed "BOGUS" — and the resulting state violates the
invariant: the new live file f0 is not reachable from the root, an
orphan. -/
theorem C6_orphan_creation :
    treeConsistentB stX = true ∧
    (stX.addFile "x.txt" "BOGUS").2 = true ∧
    treeConsistentB (stX.addFile "x.txt" "BOGUS").1 = false := by
  decide

/-- C2: cascading delete.  In any state whose current folder contains a
folder named "A" (id a, live record, parent = current folder) whose
child set holds exactly a subfolder c and a file b, the subfolder itself
holding exactly a file d, removeFolder "A" succeeds and afterwards the
registry lookups of all four ids a, b, c, d report NotFound (the C++
code nulls the file and folder records and erases the tree entries). -/
theorem C2_cascading_delete (st : Storage) (a b c d : String)
    (va vb vc vd : Nat) (foA : Folder) (entryCur : AList Nat)
    (h1 : alook st.tree st.getCurrentFolderId = some entryCur)
    (h2 : entryCur.find? (folderNamePred st "A") = some (a, va))
    (h3 : st.getFolder a = some foA)
    (h3a : foA.id = a) (h3b : foA.folderId = st.getCurrentFolderId)
    (h4 : alook st.tree a = some [(c, vc), (b, vb)])
    (h5 : isFolderKey c = true) (h6 : isFolderKey b = false)
    (h7 : alook st.tree c = some [(d, vd)])
    (h8 : isFolderKey d = false)
    (hac : a ≠ c) (hacur : a ≠ st.getCurrentFolderId)
    (hccur : c ≠ st.getCurrentFolderId) (hbd : b ≠ d) :
    (st.removeFolder "A").2 = true ∧
    (st.removeFolder "A").1.getFolder a = none ∧
    (st.removeFolder "A").1.getFolder c = none ∧
    (st.removeFolder "A").1.getFile b = none ∧
    (st.removeFolder "A").1.getFile d = none := by
  have hcur1 : st.ensureTree st.getCurrentFolderId = st :=
    ensureTree_of_some st st.getCurrentFolderId entryCur h1
  have hte : st.treeEntry st.getCurrentFolderId = entryCur :=
    treeEntry_of_some st st.getCurrentFolderId entryCur h1
  have hmain : st.removeFolder "A" =
      (Storage.removeDFS ((aset st.tree st.getCurrentFolderId (aerase entryCur a)).length + 1) a { st with tree := aset st.tree st.getCurrentFolderId (aerase entryCur a) }, true) := by
    simp only [Storage.removeFolder, hcur1, hte, h2, h3, h3a, h3b]
  have hT3a : alook (aset st.tree st.getCurrentFolderId (aerase entryCur a)) a =
      some [(c, vc), (b, vb)] := by
    rw [alook_aset_ne _ _ _ _ (Ne.symm hacur)]
    exact h4
  have hT3c : alook (aset st.tree st.getCurrentFolderId (aerase entryCur a)) c =
      some [(d, vd)] := by
    rw [alook_aset_ne _ _ _ _ (Ne.symm hccur)]
    exact h7
  have hne3 : (aset st.tree st.getCurrentFolderId (aerase entryCur a)) ≠ [] :=
    alook_ne_nil _ _ _ hT3a
  obtain ⟨n3, hn3⟩ : ∃ n,
      (aset st.tree st.getCurrentFolderId (aerase entryCur a)).length = n + 1 := by
    cases hq : aset st.tree st.getCurrentFolderId (aerase entryCur a) with
    | nil => exact absurd hq hne3
    | cons x xs => exact ⟨xs.length, by simp [hq]⟩
  have hensa := ensureTree_of_some { st with tree := aset st.tree st.getCurrentFolderId (aerase entryCur a) } a [(c, vc), (b, vb)] hT3a
  have htea := treeEntry_of_some { st with tree := aset st.tree st.getCurrentFolderId (aerase entryCur a) } a [(c, vc), (b, vb)] hT3a
  have hensc := ensureTree_of_some { st with tree := aset st.tree st.getCurrentFolderId (aerase entryCur a) } c [(d, vd)] hT3c
  have htec := treeEntry_of_some { st with tree := aset st.tree st.getCurrentFolderId (aerase entryCur a) } c [(d, vd)] hT3c
  have hinner : Storage.removeDFS (n3 + 1) c { st with tree := aset st.tree st.getCurrentFolderId (aerase entryCur a) } = { st with tree := aerase (aset st.tree st.getCurrentFolderId (aerase entryCur a)) c, folders := aset st.folders c none, files := aset st.files d none } := by
    rw [removeDFS_succ]
    simp only [hensc, htec, List.map_cons, List.map_nil, List.foldl_cons,
      List.foldl_nil, h8]
    simp
  have houter : Storage.removeDFS ((aset st.tree st.getCurrentFolderId (aerase entryCur a)).length + 1) a { st with tree := aset st.tree st.getCurrentFolderId (aerase entryCur a) } = { st with tree := aerase (aerase (aset st.tree st.getCurrentFolderId (aerase entryCur a)) c) a, folders := aset (aset st.folders c none) a none, files := aset (aset st.files d none) b none } := by
    rw [removeDFS_succ]
    simp only [hensa, htea, List.map_cons, List.map_nil, List.foldl_cons,
      List.foldl_nil, h5, h6, hn3, hinner]
    simp
  rw [hmain, houter]
  refine ⟨rfl, ?_, ?_, ?_, ?_⟩
  · show (alook (aset (aset st.folders c none) a none) a).join = none
    rw [alook_aset_self]
    rfl
  · show (alook (aset (aset st.folders c none) a none) c).join = none
    rw [alook_aset_ne _ _ _ _ hac, alook_aset_self]
    rfl
  · show (alook (aset (aset st.files d none) b none) b).join = none
    rw [alook_aset_self]
    rfl
  · show (alook (aset (aset st.files d none) b none) d).join = none
    rw [alook_aset_ne _ _ _ _ hbd, alook_aset_self]
    rfl

/-- C2 (witness): the cascading delete applied to the concrete scenario
built from the initial state: folder A = "F2" in the base folder, file
b.txt = "f0" and folder C = "F3" inside A, file d.txt = "f1" inside C. -/
theorem C2_cascading_delete_witness :
    (stC2.removeFolder "A").2 = true ∧
    (stC2.removeFolder "A").1.getFolder "F2" = none ∧
    (stC2.removeFolder "A").1.getFolder "F3" = none ∧
    (stC2.removeFolder "A").1.getFile "f0" = none ∧
    (stC2.removeFolder "A").1.getFile "f1" = none :=
  C2_cascading_delete stC2 "F2" "f0" "F3" "f1" 1 1 1 1 ⟨"F2", "A", "F1"⟩
    [("F2", 1)] (by decide) (by decide) (by decide) (by decide) (by decide)
    (by decide) (by decide) (by decide) (by decide) (by decide) (by decide)
    (by decide) (by decide) (by decide)

/-- C4 (amended): ascend succeeds and pops one element whenever the
cursor is non-empty — also at and beyond the root — and fails leaving
the state unchanged only once the cursor is already empty; the clamp sits
at zero elements, not at one. -/
theorem C4_ascend_amended (st : Storage) :
    (st.path = [] → st.getIntoFolder ".." = (st, false)) ∧
    (st.path ≠ [] →
      st.getIntoFolder ".." = ({ st with path := st.path.tail }, true) ∧
      st.path.tail.length + 1 = st.path.length) := by
  constructor
  · intro h
    simp [Storage.getIntoFolder, checkEmpty, h]
  · intro h
    cases hp : st.path with
    | nil => exact absurd hp h
    | cons a t =>
      constructor
      · simp [Storage.getIntoFolder, checkEmpty, removeCurrentFolder, hp]
      · simp [hp]

/-- C4 (witness): the amended ascend behaviour applied to the initial
state, whose cursor is non-empty. -/
theorem C4_ascend_amended_witness :
    initStorage.getIntoFolder ".." =
      ({ initStorage with path := initStorage.path.tail }, true) ∧
    initStorage.path.tail.length + 1 = initStorage.path.length :=
  (C4_ascend_amended initStorage).2 (by decide)

/-- C9: a successful descend pushes one folder id and touches nothing
else of the cursor, so the immediately following ascend pops exactly
that id and restores the previous current folder id; the ascend itself
reports success. -/
theorem C9_descend_ascend_roundtrip (st : Storage) (name : String)
    (hname : name ≠ "..") (st' : Storage)
    (h : st.getIntoFolder name = (st', true)) :
    (st'.getIntoFolder "..").2 = true ∧
    (st'.getIntoFolder "..").1.getCurrentFolderId = st.getCurrentFolderId := by
  simp only [Storage.getIntoFolder, if_pos hname] at h
  cases hf : ((st.ensureTree st.getCurrentFolderId).treeEntry
      st.getCurrentFolderId).find?
      (folderNamePred (st.ensureTree st.getCurrentFolderId) name) with
  | none =>
    rw [hf] at h
    simp at h
  | some p =>
    rw [hf] at h
    simp only [Prod.mk.injEq] at h
    obtain ⟨hst, -⟩ := h
    subst hst
    constructor
    · simp [Storage.getIntoFolder, checkEmpty, addFolderId]
    · simp [Storage.getIntoFolder, checkEmpty, addFolderId,
        removeCurrentFolder, Storage.getCurrentFolderId, getCurrentFolder,
        ensureTree_path]

/-- C9 (witness): descending into the folder docs created in the base
folder and ascending again restores the current folder id. -/
theorem C9_roundtrip_witness :
    ((((initStorage.addFolder "docs" "F1").1.getIntoFolder "docs").1.getIntoFolder
        "..").2 = true) ∧
    ((((initStorage.addFolder "docs" "F1").1.getIntoFolder "docs").1.getIntoFolder
        "..").1.getCurrentFolderId =
      (initStorage.addFolder "docs" "F1").1.getCurrentFolderId) :=
  C9_descend_ascend_roundtrip (initStorage.addFolder "docs" "F1").1 "docs"
    (by decide) ((initStorage.addFolder "docs" "F1").1.getIntoFolder "docs").1
    (by decide)

/-- C10: the navigation argument ".." is reserved: getIntoFolder ".."
always takes the ascend branch, so the resulting cursor is the tail of
the previous one (never extended by a child id) and the call succeeds
exactly when the cursor was non-empty; concretely, a child folder
literally named ".." can be created (id "F2" below) and a subsequent
getIntoFolder ".." still ascends to "F0" instead of descending into it. -/
theorem C10_dotdot_reserved :
    (∀ st : Storage,
      (st.getIntoFolder "..").1.path = st.path.tail ∧
      (st.getIntoFolder "..").2 = !st.path.isEmpty) ∧
    ((initStorage.addFolder ".." "F1").2 = true ∧
     (initStorage.addFolder ".." "F1").1.getFolder "F2" =
       some ⟨"F2", "..", "F1"⟩ ∧
     ((initStorage.addFolder ".." "F1").1.getIntoFolder "..").1.path =
       ["F0", "F0"] ∧
     ((initStorage.addFolder ".." "F1").1.getIntoFolder
         "..").1.getCurrentFolderId = "F0") := by
  constructor
  · intro st
    cases hp : st.path with
    | nil => simp [Storage.getIntoFolder, checkEmpty, hp]
    | cons a t =>
      simp [Storage.getIntoFolder, checkEmpty, removeCurrentFolder, hp]
  · decide

/-- C1 (amended): the collision check is per kind only.  After a file
with a given (dotted) name has been created in a folder, a second
createFile with the same name in the same folder fails and returns the
state exactly unchanged — likewise for two createFolder calls — but a
collision between a file and a folder of the same name is not checked
(see the counterexample). -/
theorem C1_same_kind_uniqueness (st : Storage) (name fid : String) :
    ('.' ∈ name.data → ∀ st', st.addFile name fid = (st', true) →
      st'.addFile name fid = (st', false)) ∧
    (∀ st', st.addFolder name fid = (st', true) →
      st'.addFolder name fid = (st', false)) := by
  constructor
  · intro hdot st' h
    simp only [Storage.addFile] at h
    by_cases hc : ((st.ensureTree fid).treeEntry fid).any
        (fileNamePred (st.ensureTree fid) name) = true
    · rw [if_pos hc] at h
      simp at h
    · rw [if_neg hc] at h
      simp only [Prod.mk.injEq, and_true] at h
      subst h
      have hens : ∀ stc : Storage, stc = { st.ensureTree fid with
            files := aset (st.ensureTree fid).files
              ((st.ensureTree fid).getNewFileId)
              (some (mkFile ((st.ensureTree fid).getNewFileId) name fid)),
            tree := aset (st.ensureTree fid).tree fid
              (aset ((st.ensureTree fid).treeEntry fid)
                ((st.ensureTree fid).getNewFileId) 1) } →
          stc.addFile name fid = (stc, false) := by
        intro stc hstc
        have hlook : alook stc.tree fid =
            some (aset ((st.ensureTree fid).treeEntry fid)
              ((st.ensureTree fid).getNewFileId) 1) := by
          rw [hstc]; exact alook_aset_self _ _ _
        have he : stc.ensureTree fid = stc := ensureTree_of_some _ _ _ hlook
        have hentry : stc.treeEntry fid =
            aset ((st.ensureTree fid).treeEntry fid)
              ((st.ensureTree fid).getNewFileId) 1 := by
          unfold Storage.treeEntry
          rw [hlook]; rfl
        have hany : (stc.treeEntry fid).any (fileNamePred stc name) = true := by
          rw [hentry]
          apply List.any_eq_true.mpr
          have hmem := mem_keys_aset_self ((st.ensureTree fid).treeEntry fid)
            ((st.ensureTree fid).getNewFileId) (1 : Nat)

          obtain ⟨p, hp, hp1⟩ := List.mem_map.mp hmem
          refine ⟨p, hp, ?_⟩
          unfold fileNamePred
          rw [hp1]
          have hkey : isFileKey ((st.ensureTree fid).getNewFileId) = true := by
            unfold Storage.getNewFileId
            exact isFileKey_append _
          have hfile : stc.getFile ((st.ensureTree fid).getNewFileId) =
              some (mkFile ((st.ensureTree fid).getNewFileId) name fid) := by
            unfold Storage.getFile
            rw [hstc]
            show (alook (aset (st.ensureTree fid).files _ _) _).join = _
            rw [alook_aset_self]
            rfl
          rw [hkey, hfile]
          simp [mkFile_getFileName _ _ _ hdot]
        simp only [Storage.addFile, he, if_pos hany]
      exact hens _ rfl
  · intro st' h
    simp only [Storage.addFolder] at h
    by_cases hc : ((st.ensureTree fid).treeEntry fid).any
        (folderNamePred (st.ensureTree fid) name) = true
    · rw [if_pos hc] at h
      simp at h
    · rw [if_neg hc] at h
      simp only [Prod.mk.injEq, and_true] at h
      subst h
      have hens : ∀ stc : Storage, stc = { st.ensureTree fid with
            folders := aset (st.ensureTree fid).folders
              ((st.ensureTree fid).getNewFolderId)
              (some ⟨(st.ensureTree fid).getNewFolderId, name, fid⟩),
            tree := aset (st.ensureTree fid).tree fid
              (aset ((st.ensureTree fid).treeEntry fid)
                ((st.ensureTree fid).getNewFolderId) 1) } →
          stc.addFolder name fid = (stc, false) := by
        intro stc hstc
        have hlook : alook stc.tree fid =
            some (aset ((st.ensureTree fid).treeEntry fid)
              ((st.ensureTree fid).getNewFolderId) 1) := by
          rw [hstc]; exact alook_aset_self _ _ _
        have he : stc.ensureTree fid = stc := ensureTree_of_some _ _ _ hlook
        have hentry : stc.treeEntry fid =
            aset ((st.ensureTree fid).treeEntry fid)
              ((st.ensureTree fid).getNewFolderId) 1 := by
          unfold Storage.treeEntry
          rw [hlook]; rfl
        have hany : (stc.treeEntry fid).any (folderNamePred stc name) = true := by
          rw [hentry]
          apply List.any_eq_true.mpr
          have hmem := mem_keys_aset_self ((st.ensureTree fid).treeEntry fid)
            ((st.ensureTree fid).getNewFolderId) (1 : Nat)
          obtain ⟨p, hp, hp1⟩ := List.mem_map.mp hmem
          refine ⟨p, hp, ?_⟩
          unfold folderNamePred
          rw [hp1]
          have hkey : isFolderKey ((st.ensureTree fid).getNewFolderId) = true := by
            unfold Storage.getNewFolderId
            exact isFolderKey_append _
          have hfo : stc.getFolder ((st.ensureTree fid).getNewFolderId) =
              some ⟨(st.ensureTree fid).getNewFolderId, name, fid⟩ := by
            unfold Storage.getFolder
            rw [hstc]
            show (alook (aset (st.ensureTree fid).folders _ _) _).join = _
            rw [alook_aset_self]
            rfl
          rw [hkey, hfo]
          simp
        simp only [Storage.addFolder, he, if_pos hany]
      exact hens _ rfl

/-- C1 (witness): the amended same-kind uniqueness applied to a file and
a folder created in the base folder of the initial state. -/
theorem C1_same_kind_witness :
    ((initStorage.addFile "a.txt" "F1").1.addFile "a.txt" "F1" =
      ((initStorage.addFile "a.txt" "F1").1, false)) ∧
    ((initStorage.addFolder "docs" "F1").1.addFolder "docs" "F1" =
      ((initStorage.addFolder "docs" "F1").1, false)) :=
  ⟨(C1_same_kind_uniqueness initStorage "a.txt" "F1").1 (by decide)
      (initStorage.addFile "a.txt" "F1").1 (by decide),
   (C1_same_kind_uniqueness initStorage "docs" "F1").2
      (initStorage.addFolder "docs" "F1").1 (by decide)⟩

/-- C6 (amended): a successful create links the new id under exactly the
tree entry keyed by the requested parent id and stamps the entity's
parentId with that key (local edge consistency); but no existence check
is made on the parent id, so a create with an unregistered parent id
produces an orphan (see the counterexample). -/
theorem C6_create_links_child_to_parent_key (st : Storage) (name fid : String) :
    (∀ st', st.addFile name fid = (st', true) →
      st'.getFile st.getNewFileId = some (mkFile st.getNewFileId name fid) ∧
      (mkFile st.getNewFileId name fid).folderId = fid ∧
      st.getNewFileId ∈ (st'.treeEntry fid).map Prod.fst) ∧
    (∀ st', st.addFolder name fid = (st', true) →
      st'.getFolder st.getNewFolderId =
        some ⟨st.getNewFolderId, name, fid⟩ ∧
      st.getNewFolderId ∈ (st'.treeEntry fid).map Prod.fst) := by
  have hfid : (st.ensureTree fid).getNewFileId = st.getNewFileId := by
    unfold Storage.getNewFileId
    rw [ensureTree_files]
  have hfoid : (st.ensureTree fid).getNewFolderId = st.getNewFolderId := by
    unfold Storage.getNewFolderId
    rw [ensureTree_folders]
  constructor
  · intro st' h
    simp only [Storage.addFile] at h
    by_cases hc : ((st.ensureTree fid).treeEntry fid).any
        (fileNamePred (st.ensureTree fid) name) = true
    · rw [if_pos hc] at h
      simp at h
    · rw [if_neg hc] at h
      simp only [Prod.mk.injEq, and_true] at h
      subst h
      rw [hfid] at *
      refine ⟨?_, mkFile_folderId _ _ _, ?_⟩
      · unfold Storage.getFile
        show (alook (aset (st.ensureTree fid).files _ _) _).join = _
        rw [alook_aset_self]
        rfl
      · unfold Storage.treeEntry
        rw [alook_aset_self]
        exact mem_keys_aset_self _ _ _
  · intro st' h
    simp only [Storage.addFolder] at h
    by_cases hc : ((st.ensureTree fid).treeEntry fid).any
        (folderNamePred (st.ensureTree fid) name) = true
    · rw [if_pos hc] at h
      simp at h
    · rw [if_neg hc] at h
      simp only [Prod.mk.injEq, and_true] at h
      subst h
      rw [hfoid] at *
      refine ⟨?_, ?_⟩
      · unfold Storage.getFolder
        show (alook (aset (st.ensureTree fid).folders _ _) _).join = _
        rw [alook_aset_self]
        rfl
      · unfold Storage.treeEntry
        rw [alook_aset_self]
        exact mem_keys_aset_self _ _ _

/-- C6 (witness): the local edge consistency of createFile applied to the
minimal consistent state and the unregistered parent id "BOGUS". -/
theorem C6_create_links_witness :
    (stX.addFile "x.txt" "BOGUS").1.getFile stX.getNewFileId =
      some (mkFile stX.getNewFileId "x.txt" "BOGUS") ∧
    (mkFile stX.getNewFileId "x.txt" "BOGUS").folderId = "BOGUS" ∧
    stX.getNewFileId ∈
      (((stX.addFile "x.txt" "BOGUS").1.treeEntry "BOGUS").map Prod.fst) :=
  (C6_create_links_child_to_parent_key stX "x.txt" "BOGUS").1
    (stX.addFile "x.txt" "BOGUS").1 (by decide)

/-- C8: matchesLine is total and never propagates an error: when regex
construction on the (case-folded when requested) pattern fails, the
result falls back to substring containment of the folded pattern in the
folded line; when it succeeds, the matcher's verdict on the line is
used; in both cases the boolean is inverted exactly when invertMatch is
set (third conjunct: the invert flag always negates the non-inverted
result). -/
theorem C8_matchesLine_total_fallback (eng : RegexEngine)
    (line pattern : String) (ci inv : Bool) :
    (eng (if ci then lowerStr pattern else pattern) ci = none →
      matchesPattern eng line pattern ci inv =
        (if inv then
          !(strContainsSub (if ci then lowerStr line else line)
            (if ci then lowerStr pattern else pattern))
         else
          strContainsSub (if ci then lowerStr line else line)
            (if ci then lowerStr pattern else pattern))) ∧
    (∀ f, eng (if ci then lowerStr pattern else pattern) ci = some f →
      matchesPattern eng line pattern ci inv =
        (if inv then !(f line) else f line)) ∧
    (matchesPattern eng line pattern ci true =
      !(matchesPattern eng line pattern ci false)) := by
  refine ⟨fun h => ?_, fun f h => ?_, ?_⟩
  · simp [matchesPattern, h]
  · simp [matchesPattern, h]
  · unfold matchesPattern
    cases eng (if ci then lowerStr pattern else pattern) ci <;> simp

/-- C8 (witness): the valid-pattern branch applied to a concrete literal
engine, line and pattern. -/
theorem C8_matchesLine_witness :
    matchesPattern engLiteral "abc" "b" false false =
      (if false then !(strContainsSub "abc" "b") else strContainsSub "abc" "b") :=
  (C8_matchesLine_total_fallback engLiteral "abc" "b" false false).2.1
    (fun l => strContainsSub l "b") rfl

theorem collectMatches_mem (eng : RegexEngine) (pattern : String)
    (ci inv : Bool) (fn fp fid : String) :
    ∀ (lines : List String) (i : Nat) (r : GrepResult),
      r ∈ collectMatches eng pattern ci inv
        (fun n l => ⟨fn, fp, n, l, fid⟩) i lines →
      ∃ j, j < lines.length ∧ lines.get? j = some r.matchedLine ∧
        r.lineNumber = i + j + 1 ∧
        matchesPattern eng r.matchedLine pattern ci inv = true := by
  intro lines
  induction lines with
  | nil => intro i r h; simp [collectMatches] at h
  | cons l rest ih =>
    intro i r h
    unfold collectMatches at h
    rcases List.mem_append.mp h with h1 | h1
    · by_cases hm : matchesPattern eng l pattern ci inv = true
      · rw [if_pos hm] at h1
        simp at h1
        subst h1
        exact ⟨0, by simp, by simp, by simp, by simpa using hm⟩
      · rw [if_neg hm] at h1
        simp at h1
    · obtain ⟨j, hj1, hj2, hj3, hj4⟩ := ih (i + 1) r h1
      refine ⟨j + 1, by simpa using hj1, by simpa using hj2, by omega, hj4⟩

theorem collectMatches_complete (eng : RegexEngine) (pattern : String)
    (ci inv : Bool) (fn fp fid : String) :
    ∀ (lines : List String) (i j : Nat) (l : String),
      lines.get? j = some l →
      matchesPattern eng l pattern ci inv = true →
      (⟨fn, fp, i + j + 1, l, fid⟩ : GrepResult) ∈
        collectMatches eng pattern ci inv (fun n s => ⟨fn, fp, n, s, fid⟩) i lines := by
  intro lines
  induction lines with
  | nil => intro i j l h; simp at h
  | cons x rest ih =>
    intro i j l hget hm
    unfold collectMatches
    apply List.mem_append.mpr
    cases j with
    | zero =>
      left
      simp at hget
      subst hget
      rw [if_pos hm]
      simp
    | succ j' =>
      right
      have hmem := ih (i + 1) j' l (by simpa using hget) hm
      have harith : i + (j' + 1) + 1 = (i + 1) + j' + 1 := by omega
      rw [harith]
      exact hmem

theorem collectMatches_lb (eng : RegexEngine) (pattern : String)
    (ci inv : Bool) (fn fp fid : String) (lines : List String) (i : Nat)
    (r : GrepResult)
    (h : r ∈ collectMatches eng pattern ci inv
      (fun n l => ⟨fn, fp, n, l, fid⟩) i lines) : i + 1 ≤ r.lineNumber := by
  obtain ⟨j, -, -, hj3, -⟩ :=
    collectMatches_mem eng pattern ci inv fn fp fid lines i r h
  omega

theorem collectMatches_pairwise (eng : RegexEngine) (pattern : String)
    (ci inv : Bool) (fn fp fid : String) :
    ∀ (lines : List String) (i : Nat),
      (collectMatches eng pattern ci inv
        (fun n l => ⟨fn, fp, n, l, fid⟩) i lines).Pairwise
        (fun r s => r.lineNumber < s.lineNumber) := by
  intro lines
  induction lines with
  | nil => intro i; simp [collectMatches]
  | cons l rest ih =>
    intro i
    unfold collectMatches
    apply List.pairwise_append.mpr
    refine ⟨?_, ih (i + 1), ?_⟩
    · by_cases hm : matchesPattern eng l pattern ci inv = true
      · rw [if_pos hm]; simp
      · rw [if_neg hm]; simp
    · intro r hr s hs
      have hub := collectMatches_lb eng pattern ci inv fn fp fid rest (i + 1) s hs
      by_cases hm : matchesPattern eng l pattern ci inv = true
      · rw [if_pos hm] at hr
        simp at hr
        subst hr
        simp only []
        omega
      · rw [if_neg hm] at hr
        simp at hr

/-- C7: grep exactness.  First conjunct (the spec scenario): for every
regex engine that behaves like ECMAScript regex search on the literal
pattern "Hello" against the two concrete lines, grep "Hello" with
default options on the notes.txt store returns exactly one record with
lineNumber 1 and matchedLine "Hello World".  The remaining conjuncts
show searchInFile applies the line matcher to every line in document
order with 1-based numbers: every returned record carries a matching
line at position lineNumber-1 of the split content (soundness), every
matching line yields its record (completeness), and the records are
strictly ordered by line number. -/
theorem C7_grep_exactness :
    (∀ eng : RegexEngine,
      (∀ f, eng "Hello" false = some f →
        f "Hello World" = true ∧ f "Second line" = false) →
      grep eng notesStore "Hello" defaultGrepOptions =
        GrepOutcome.results
          [⟨"notes.txt", "BaseFolder//notes.txt", 1, "Hello World", "f0"⟩]) ∧
    (∀ (eng : RegexEngine) (st : Storage) (fid pattern : String)
        (opts : GrepOptions) (r : GrepResult),
      r ∈ searchInFile eng st fid pattern opts →
      ∃ file, st.getFile fid = some file ∧ 1 ≤ r.lineNumber ∧
        (splitLines file.content).get? (r.lineNumber - 1) = some r.matchedLine ∧
        matchesPattern eng r.matchedLine pattern opts.caseInsensitive
          opts.invertMatch = true) ∧
    (∀ (eng : RegexEngine) (st : Storage) (fid pattern : String)
        (opts : GrepOptions) (file : File) (j : Nat) (l : String),
      st.getFile fid = some file → file.content ≠ "" →
      (splitLines file.content).get? j = some l →
      matchesPattern eng l pattern opts.caseInsensitive opts.invertMatch = true →
      (⟨file.getFileName,
        st.getPath file.getFolderId ++ "/" ++ file.getFileName,
        j + 1, l, fid⟩ : GrepResult) ∈ searchInFile eng st fid pattern opts) ∧
    (∀ (eng : RegexEngine) (st : Storage) (fid pattern : String)
        (opts : GrepOptions),
      (searchInFile eng st fid pattern opts).Pairwise
        (fun r s => r.lineNumber < s.lineNumber)) := by
  refine ⟨?_, ?_, ?_, ?_⟩
  · intro eng h
    have hm1 : matchesPattern eng "Hello World" "Hello" false false = true := by
      cases he : eng "Hello" false with
      | none =>
        simp [matchesPattern, he]
        decide
      | some f =>
        obtain ⟨hf1, hf2⟩ := h f he
        simp [matchesPattern, he, hf1]
    have hm2 : matchesPattern eng "Second line" "Hello" false false = false := by
      cases he : eng "Hello" false with
      | none =>
        simp [matchesPattern, he]
        decide
      | some f =>
        obtain ⟨hf1, hf2⟩ := h f he
        simp [matchesPattern, he, hf2]
    have key : collectMatches eng "Hello" false false
        (fun n l => (⟨"notes.txt", "BaseFolder//notes.txt", n, l, "f0"⟩ :
          GrepResult)) 0 ["Hello World", "Second line"] =
        [⟨"notes.txt", "BaseFolder//notes.txt", 1, "Hello World", "f0"⟩] := by
      unfold collectMatches
      rw [if_pos hm1]
      unfold collectMatches
      rw [if_neg (by rw [hm2]; simp)]
      unfold collectMatches
      rfl
    calc grep eng notesStore "Hello" defaultGrepOptions
        = GrepOutcome.results (collectMatches eng "Hello" false false
            (fun n l => (⟨"notes.txt", "BaseFolder//notes.txt", n, l, "f0"⟩ :
              GrepResult)) 0 ["Hello World", "Second line"]) := rfl
      _ = GrepOutcome.results
            [⟨"notes.txt", "BaseFolder//notes.txt", 1, "Hello World", "f0"⟩] := by
          rw [key]
  · intro eng st fid pattern opts r hr
    unfold searchInFile at hr
    cases hgf : st.getFile fid with
    | none => rw [hgf] at hr; simp at hr
    | some file =>
      rw [hgf] at hr
      simp only [] at hr
      by_cases hc : file.content = ""
      · rw [if_pos hc] at hr; simp at hr
      · rw [if_neg hc] at hr
        obtain ⟨j, hj1, hj2, hj3, hj4⟩ := collectMatches_mem eng pattern
          opts.caseInsensitive opts.invertMatch file.getFileName
          (st.getPath file.getFolderId ++ "/" ++ file.getFileName) fid
          (splitLines file.content) 0 r hr
        have hjn : r.lineNumber - 1 = j := by omega
        exact ⟨file, rfl, by omega, by rw [hjn]; exact hj2, hj4⟩
  · intro eng st fid pattern opts file j l hgf hcne hget hm
    unfold searchInFile
    rw [hgf]
    simp only []
    rw [if_neg hcne]
    have := collectMatches_complete eng pattern opts.caseInsensitive
      opts.invertMatch file.getFileName
      (st.getPath file.getFolderId ++ "/" ++ file.getFileName) fid
      (splitLines file.content) 0 j l hget hm
    simpa using this
  · intro eng st fid pattern opts
    unfold searchInFile
    cases st.getFile fid with
    | none => simp
    | some file =>
      simp only []
      by_cases hc : file.content = ""
      · rw [if_pos hc]; simp
      · rw [if_neg hc]
        exact collectMatches_pairwise eng pattern opts.caseInsensitive
          opts.invertMatch file.getFileName
          (st.getPath file.getFolderId ++ "/" ++ file.getFileName) fid
          (splitLines file.content) 0

/-- C7 (witness): the concrete grep scenario evaluated with the engine
that rejects every pattern, exercising the substring fallback. -/
theorem C7_grep_witness :
    grep engReject notesStore "Hello" defaultGrepOptions =
      GrepOutcome.results
        [⟨"notes.txt", "BaseFolder//notes.txt", 1, "Hello World", "f0"⟩] :=
  C7_grep_exactness.1 engReject (fun _ hf => nomatch hf)

end FSim
